import Mathlib

/-!
Shallow embedding of the TEW beta-reader backend (src/backend/app.py).

JSON request/response bodies and persisted documents are modelled by the
inductive type `J`.  Python truthiness (`x or default`), `float(...)`
conversion, `str.strip()` / `str.lower()` and the handlers' branch structure
are translated directly from the source.  Database tables are lists of rows;
a handler is a pure function from its inputs and the relevant table state to
a response together with the successor state.  A Python statement that can
raise an uncaught exception (turned into a 500 by the framework) is modelled
by `Except Unit`: `.error ()` is an unhandled exception escaping the handler.
Timestamps (`datetime.utcnow()`) are abstract ticks (`Nat`) passed in as a
`now` parameter; `isoformat()` is an abstract injective rendering of such a
tick.
-/

namespace TEW

/-- JSON-ish values as produced by `request.get_json` / `json.loads`. -/
inductive J where
  | null : J
  | b : Bool → J
  | n : ℚ → J
  | s : String → J
  | arr : List J → J
  | obj : List (String × J) → J

/-- Python truthiness of a JSON-derived value (`bool(x)`). -/
def truthyJ : J → Bool
  | .null => false
  | .b v => v
  | .n q => if q = 0 then false else true
  | .s t => if t = "" then false else true
  | .arr l => !l.isEmpty
  | .obj l => !l.isEmpty

/-- Python `x or d`: the left value when truthy, otherwise the default. -/
def jOr (v d : J) : J := if truthyJ v then v else d

/-- Python `dict.get(k)` on a parsed JSON object (absent key gives `None`). -/
def jGet (kvs : List (String × J)) (k : String) : J :=
  match kvs.find? (fun kv => kv.1 == k) with
  | some kv => kv.2
  | none => J.null

/-- Python `m.get(k)` where `m` may be any JSON value: raises unless `m`
is a dict. -/
def jGetE (m : J) (k : String) : Except Unit J :=
  match m with
  | .obj kvs => .ok (jGet kvs k)
  | _ => .error ()

/-- Whitespace characters removed by Python `str.strip()`. -/
def isWs (c : Char) : Bool :=
  c == ' ' || c == '\t' || c == '\n' || c == '\r'

/-- Strip leading and trailing whitespace from a character list. -/
def trimChars (cs : List Char) : List Char :=
  ((cs.dropWhile isWs).reverse.dropWhile isWs).reverse

/-- Python `str.strip()` (kernel-reducible charwise implementation). -/
def pyStrip (t : String) : String := String.mk (trimChars t.data)

/-- Python `str.lower()` (ASCII; sufficient for the values compared here). -/
def pyLower (t : String) : String := String.mk (t.data.map Char.toLower)

/-- Value of a digit-character list read in base 10 (callers ensure all
characters are digits). -/
def digitsToNat (cs : List Char) : Nat :=
  cs.foldl (fun a c => a * 10 + (c.toNat - 48)) 0

/-- Python `float(string)` on plain decimal numerals: optional sign, an
integer part and/or a fractional part.  Exponents, `inf`/`nan` and digit
underscores are not modelled; on every other input (such as non-numeric
text) the conversion fails, as `float` raises `ValueError`. -/
def parseFloatStr (t : String) : Option ℚ :=
  let cs := trimChars t.data
  let sr : ℚ × List Char :=
    match cs with
    | '+' :: r => (1, r)
    | '-' :: r => (-1, r)
    | r => (1, r)
  let ip := sr.2.takeWhile Char.isDigit
  let rest2 := sr.2.drop ip.length
  match rest2 with
  | [] => if ip.isEmpty then none else some (sr.1 * (digitsToNat ip : ℚ))
  | '.' :: r2 =>
    let fp := r2.takeWhile Char.isDigit
    let rest3 := r2.drop fp.length
    if !rest3.isEmpty then none
    else if ip.isEmpty && fp.isEmpty then none
    else some (sr.1 * ((digitsToNat ip : ℚ) + (digitsToNat fp : ℚ) / (10 : ℚ) ^ fp.length))
  | _ => none

/-- Python `float(x)` on a JSON-derived value; `none` models a raised
`TypeError`/`ValueError`. -/
def pyFloat : J → Option ℚ
  | .n q => some q
  | .b v => some (if v then 1 else 0)
  | .s t => parseFloatStr t
  | _ => none

/-- Python `str(x)` on a JSON-derived value.  The renderings of numbers,
lists and dicts are abstract placeholders: no theorem depends on their
exact text. -/
def pyStrOfJ : J → String
  | .null => "None"
  | .b true => "True"
  | .b false => "False"
  | .n q => toString q.num
  | .s t => t
  | .arr _ => "<list>"
  | .obj _ => "<dict>"

/-- A request body as seen through `payload.get(key)`: absent keys give
`J.null` (Python `None`). -/
def Payload : Type := String → J

/-- The pervasive source idiom `(payload.get(k) or "").strip()`: yields the
trimmed string, or raises (`.error`) when the value is truthy but not a
string (`.strip()` on a non-`str`). -/
def jStrField (p : Payload) (k : String) : Except Unit String :=
  match jOr (p k) (.s "") with
  | .s t => .ok (pyStrip t)
  | _ => .error ()

/-- The source idiom `float(payload.get("positionSeconds") or 0.0)` shared
by the progress, bookmark and note create handlers. -/
def posField (p : Payload) : Except Unit ℚ :=
  match pyFloat (jOr (p "positionSeconds") (.n 0)) with
  | some q => .ok q
  | none => .error ()

/-- An HTTP response: status code and JSON body. -/
structure Resp where
  status : Nat
  body : J

/-- `jsonify({"error": msg}), status`. -/
def errResp (status : Nat) (msg : String) : Resp :=
  ⟨status, .obj [( "error", .s msg)]⟩

/-- `jsonify({"ok": True})`. -/
def okResp : Resp := ⟨200, .obj [( "ok", .b true)]⟩

/-- `jsonify({"ok": True, "id": row.id})`. -/
def okIdResp (id : Nat) : Resp :=
  ⟨200, .obj [( "ok", .b true), ( "id", .n id)]⟩

/-- Abstract `datetime.isoformat()` rendering of an abstract tick. -/
def isoOf (t : Nat) : String := toString t

/-! URL parsing, the audio-source allowlist and the streaming proxy. -/

/-- Does the list start with the given pattern? -/
def listStarts : List Char → List Char → Bool
  | _, [] => true
  | [], _ :: _ => false
  | a :: as2, b :: bs => a == b && listStarts as2 bs

/-- Split at the first occurrence of `sep`: `some (before, after)`, or
`none` when `sep` does not occur. -/
def breakOn (sep : List Char) : List Char → Option (List Char × List Char)
  | [] => if sep.isEmpty then some ([], []) else none
  | c :: cs =>
    if listStarts (c :: cs) sep then some ([], (c :: cs).drop sep.length)
    else
      match breakOn sep cs with
      | some ab => some (c :: ab.1, ab.2)
      | none => none

/-- Take characters up to (excluding) the first occurrence of a stop
character. -/
def takeUntil (stops : List Char) : List Char → List Char
  | [] => []
  | c :: cs => if stops.contains c then [] else c :: takeUntil stops cs

/-- The characters after the last occurrence of `sep` (the whole list when
`sep` is absent). -/
def afterLastChar (sep : Char) (cs : List Char) : List Char :=
  (cs.reverse.takeWhile (fun c => c != sep)).reverse

/-- Python `str.endswith(suffix)`. -/
def strEndsWith (t suff : String) : Bool :=
  listStarts t.data.reverse suff.data.reverse

/-- `urllib.parse.urlparse(url)` restricted to the two components the
allowlist check reads: `(u.scheme, u.hostname or "")`, both lowercased.
A URL without `"://"` yields no netloc, hence an empty host (and its
scheme, if any, is irrelevant to the check since the host check then
fails).  Userinfo (`...@`) and a `:port` suffix are stripped from the
netloc; bracketed IPv6 hosts are not modelled. -/
def urlparse_scheme_host (url : String) : String × String :=
  match breakOn "://".data url.data with
  | none => ("", "")
  | some sr =>
    let netloc := takeUntil ['/', '?', '#'] sr.2
    let hostport := afterLastChar '@' netloc
    let host := takeUntil [':'] hostport
    (String.mk (sr.1.map Char.toLower), String.mk (host.map Char.toLower))

/-- `_is_allowed_audio_source` (app.py:471): scheme must be http/https and
the lowercased hostname must satisfy
`host.endswith("dropbox.com") or host.endswith("dropboxusercontent.com")`. -/
def is_allowed_audio_source (url : String) : Bool :=
  let sh := urlparse_scheme_host url
  if !(sh.1 == "http" || sh.1 == "https") then false
  else strEndsWith sh.2 "dropbox.com" || strEndsWith sh.2 "dropboxusercontent.com"

/-- The host condition of the specification, in the spec's words: the host
is exactly one of the two allowlisted domains or a subdomain of one of
them.  (Comparison definition for the refinement claim about the
allowlist; the code's own check is `is_allowed_audio_source`.) -/
def spec_allowed_host (host : String) : Bool :=
  host == "dropbox.com" || host == "dropboxusercontent.com" ||
  strEndsWith host ".dropbox.com" || strEndsWith host ".dropboxusercontent.com"

/-- A persisted JSON document on disk, abstracted by its read/parse
outcome: the file is absent, present but not valid JSON (`json.loads`
raises), or present with parsed value `j`. -/
inductive FileDoc where
  | missing : FileDoc
  | malformed : FileDoc
  | ok : J → FileDoc

/-- `_read_manifest` (app.py:460): default manifest when the file is
missing, otherwise `json.loads` of its text (raising on malformed input). -/
def read_manifest (f : FileDoc) : Except Unit J :=
  match f with
  | .missing => .ok (J.obj [( "bookTitle", .s "The Enemy Within"), ( "chapters", .arr [])])
  | .malformed => .error ()
  | .ok j => .ok j

/-- Python `ch.get("id") == chapter_id` for a JSON value against a str. -/
def jEqStr (v : J) (t : String) : Bool :=
  match v with
  | .s u => u == t
  | _ => false

/-- Loop body of `_find_chapter_audio_url`: scan the chapter list; each
element must be a dict (`ch.get` raises otherwise). -/
def findChapterIn (l : List J) (cid : String) : Except Unit (Option J) :=
  match l with
  | [] => .ok none
  | ch :: rest =>
    match ch with
    | .obj kvs =>
      if jEqStr (jGet kvs "id") cid then .ok (some (jGet kvs "audioUrl"))
      else findChapterIn rest cid
    | _ => .error ()

/-- `_find_chapter_audio_url` (app.py:465): `manifest.get("chapters") or []`,
then the first chapter whose `id` equals `chapter_id` gives its `audioUrl`.
Iterating a truthy non-list `chapters` value is modelled as a raise. -/
def find_chapter_audio_url (m : J) (cid : String) : Except Unit (Option J) := do
  let chsJ ← jGetE m "chapters"
  match jOr chsJ (.arr []) with
  | .arr l => findChapterIn l cid
  | _ => .error ()

/-- Outcome of `stream_audio` up to the upstream boundary: either a
response produced before any upstream connection, or the `urlopen` call
itself (`.fetch url headers`), which is the first moment an upstream
connection is attempted.  The post-fetch chunked relay is I/O beyond this
boundary and is not modelled. -/
inductive StreamStep where
  | resp : Resp → StreamStep
  | fetch : String → List (String × String) → StreamStep

/-- Request headers built by `stream_audio` before `urlopen`. -/
def streamHeaders (range_h : Option String) : List (String × String) :=
  [( "User-Agent", "TEW-BetaReader/1.0"), ( "Accept", "audio/mpeg,audio/*;q=0.9,*/*;q=0.1")] ++
  (match range_h with
   | some r => [( "Range", r)]
   | none => [])

/-- `stream_audio` (app.py:483) up to the upstream boundary: read the
manifest, look up the chapter's `audioUrl`, 404 when falsy/absent, 400 when
`_is_allowed_audio_source` rejects it, otherwise attempt the upstream
fetch.  (A truthy non-string `audioUrl` makes `urlparse` raise inside the
allowlist helper's `try`, so it is rejected with 400 as well.) -/
def stream_audio (cid : String) (mf : FileDoc) (range_h : Option String) :
    Except Unit StreamStep := do
  let m ← read_manifest mf
  let src ← find_chapter_audio_url m cid
  match src with
  | none => .ok (.resp (errResp 404 "Unknown chapter"))
  | some v =>
    if !truthyJ v then .ok (.resp (errResp 404 "Unknown chapter"))
    else
      match v with
      | .s u =>
        if !is_allowed_audio_source u then .ok (.resp (errResp 400 "Audio source not allowed"))
        else .ok (.fetch u (streamHeaders range_h))
      | _ => .ok (.resp (errResp 400 "Audio source not allowed"))

/-! Database rows and generic list-state helpers. -/

/-- `users` table row (app.py:97).  `created_at` is an abstract tick. -/
structure User where
  id : Nat
  name : String
  email : String
  password_hash : String
  is_admin : Bool
  created_at : Nat
  reader_theme : String
  reader_font_scale : ℚ
  reader_line_height : ℚ

/-- `invite_codes` table row (app.py:85). -/
structure InviteCode where
  code : String
  used_at : Option Nat
  used_by_email : Option String

/-- `listening_progress` table row (app.py:112); the surrogate `id` column
is never read by any handler and is omitted. -/
structure ProgressRow where
  user_id : Nat
  chapter_id : String
  position_seconds : ℚ
  updated_at : Nat

/-- `bookmarks` table row (app.py:135). -/
structure BookmarkRow where
  id : Nat
  user_id : Nat
  chapter_id : String
  position_seconds : ℚ
  label : Option String
  created_at : Nat

/-- `notes` table row (app.py:146). -/
structure NoteRow where
  id : Nat
  user_id : Nat
  chapter_id : String
  position_seconds : ℚ
  note_type : Option String
  severity : Option String
  spoiler : Bool
  text : String
  created_at : Nat
  updated_at : Nat

/-- `feedback` table row (app.py:190). -/
structure FeedbackRow where
  id : Nat
  user_id : Nat
  scope : String
  chapter_id : Option String
  status : String
  draft_version : Option String
  text : String
  created_at : Nat

/-- A table with an autoincrement primary key: its rows in insertion order
plus the next id to assign. -/
structure Table (α : Type) where
  rows : List α
  next_id : Nat

/-- ORM `query.filter_by(...).first()` followed by mutating the found row:
replace the first row satisfying the predicate by its image under `f`. -/
def updateFirst (pred : α → Bool) (f : α → α) : List α → List α
  | [] => []
  | r :: rs => if pred r then f r :: rs else r :: updateFirst pred f rs

/-- ORM `session.delete(row)` for the first row matching the predicate. -/
def removeFirst (pred : α → Bool) : List α → List α
  | [] => []
  | r :: rs => if pred r then rs else r :: removeFirst pred rs

/-! Identity endpoints: `/api/auth/me`, signup, reader settings. -/

/-- `me` handler, GET `/api/auth/me` (app.py:317): an unauthenticated
request gets a 200 with `authenticated: false`; an authenticated one gets
the identity summary. -/
def me (cu : Option User) : Resp :=
  match cu with
  | none => ⟨200, .obj [( "authenticated", .b false)]⟩
  | some u =>
    ⟨200, .obj [( "authenticated", .b true),
                ( "user", .obj [( "id", .n u.id), ( "name", .s u.name),
                                ( "email", .s u.email), ( "isAdmin", .b u.is_admin)])]⟩

/-- Signup-relevant database state: the `users` table (with its
autoincrement counter) and the `invite_codes` table. -/
structure DB where
  users : List User
  invites : List InviteCode
  next_user_id : Nat

/-- Opaque model of `werkzeug.generate_password_hash`; the hash text
itself is never inspected by any claim. -/
def generate_password_hash (pw : String) : String := "hashed:" ++ pw

/-- Field extraction of `signup` (app.py:373-377):
`(payload.get("name") or "").strip()`, the same for email (then lowered)
and inviteCode, and `payload.get("password") or ""` kept raw. -/
def signupFields (p : Payload) : Except Unit (String × String × J × String) :=
  match jStrField p "name" with
  | .error e => .error e
  | .ok name =>
    match jStrField p "email" with
    | .error e => .error e
    | .ok email =>
      match jStrField p "inviteCode" with
      | .error e => .error e
      | .ok ic => .ok (name, pyLower email, jOr (p "password") (.s ""), ic)

/-- The User row created by a successful signup: column defaults
`is_admin=False`, `created_at=now`, reader settings `paper`/1.0/1.65. -/
def mkSignupUser (id : Nat) (name email pwHash : String) (now : Nat) : User :=
  ⟨id, name, email, pwHash, false, now, "paper", 1.0, 1.65⟩

/-- The invite-code consumption of `signup` (app.py:394-396): set the
matching code's `used_at` and `used_by_email`. -/
def consumeInvite (invites : List InviteCode) (ic : String) (now : Nat) (email : String) :
    List InviteCode :=
  updateFirst (fun c => c.code == ic)
    (fun c => { c with used_at := some now, used_by_email := some email }) invites

/-- Core of `signup` (app.py:371-401) after field extraction: missing
fields, unknown code, used code and taken email each give a 400 with the
database untouched; otherwise the new user row and the consumed invite
code are committed together in the one `db.session.commit()`.
`login_user` touches only the session and is not modelled.  Hashing a
truthy non-string password would raise (`.error`). -/
def signupCore (name email : String) (pw : J) (ic : String) (now : Nat) (db : DB) :
    Except Unit (Resp × DB) :=
  if !(name != "" && email != "" && truthyJ pw && ic != "") then
    .ok (errResp 400 "Missing required fields", db)
  else
    match db.invites.find? (fun c => c.code == ic) with
    | none => .ok (errResp 400 "Invalid invite code", db)
    | some c =>
      if c.used_at.isSome then .ok (errResp 400 "Invite code already used", db)
      else if db.users.any (fun u => u.email == email) then
        .ok (errResp 400 "Email already registered", db)
      else
        match pw with
        | .s pws =>
          .ok (okResp,
               { users := db.users ++
                   [mkSignupUser db.next_user_id name email (generate_password_hash pws) now],
                 invites := consumeInvite db.invites ic now email,
                 next_user_id := db.next_user_id + 1 })
        | _ => .error ()

/-- `signup` handler, POST `/api/auth/signup` (app.py:371). -/
def signup (p : Payload) (now : Nat) (db : DB) : Except Unit (Resp × DB) :=
  match signupFields p with
  | .error e => .error e
  | .ok f => signupCore f.1 f.2.1 f.2.2.1 f.2.2.2 now db

/-- Does the database hold the given invite code with `used_at` set? -/
def inviteIsUsed (db : DB) (ic : String) : Bool :=
  match db.invites.find? (fun c => c.code == ic) with
  | some c => c.used_at.isSome
  | none => false

/-- Is some user row registered under the given (lowercased) email? -/
def emailTaken (db : DB) (email : String) : Bool :=
  db.users.any (fun u => u.email == email)

/-- `get_reader_settings`, GET `/api/me/reader-settings` (app.py:333):
each stored field passes through an `x or default` falsy-fallback. -/
def get_reader_settings (u : User) : Resp :=
  ⟨200, .obj [( "theme", .s (if u.reader_theme = "" then "paper" else u.reader_theme)),
              ( "fontScale", .n (if u.reader_font_scale = 0 then 1.0 else u.reader_font_scale)),
              ( "lineHeight", .n (if u.reader_line_height = 0 then 1.65 else u.reader_line_height))]⟩

/-- `theme in ("paper", "white", "night")` on a JSON value: only the exact
three strings compare equal. -/
def validThemeJ : J → Option String
  | .s t => if t == "paper" || t == "white" || t == "night" then some t else none
  | _ => none

/-- Theme stage of `put_reader_settings` (app.py:349-351). -/
def applyTheme (u : User) (p : Payload) : User :=
  match validThemeJ (p "theme") with
  | some t => { u with reader_theme := t }
  | none => u

/-- fontScale stage of `put_reader_settings` (app.py:353-359): clamp a
convertible value into `[0.75, 1.6]`; a raising `float(...)` is swallowed
and the stored value kept. -/
def applyFontScale (u : User) (p : Payload) : User :=
  match pyFloat (p "fontScale") with
  | some fs => { u with reader_font_scale := max 0.75 (min 1.6 fs) }
  | none => u

/-- lineHeight stage of `put_reader_settings` (app.py:361-366): clamp into
`[1.2, 2.4]`, ignore an unconvertible value. -/
def applyLineHeight (u : User) (p : Payload) : User :=
  match pyFloat (p "lineHeight") with
  | some lh => { u with reader_line_height := max 1.2 (min 2.4 lh) }
  | none => u

/-- Dict-body path of `put_reader_settings` (app.py:349-369): with the
payload an object whose lookups are `p`, apply the three independent
stages, commit, and answer with `get_reader_settings` on the updated
row.  This part never raises (each `float(...)` is inside a `try`). -/
def put_reader_settings_obj (u : User) (p : Payload) : User × Resp :=
  let u3 := applyLineHeight (applyFontScale (applyTheme u p) p) p
  (u3, get_reader_settings u3)

/-- `put_reader_settings`, PUT `/api/me/reader-settings` (app.py:344),
over the raw request body.  `none` models a body that
`request.get_json(silent=True)` turns into `None` (absent, unparseable,
or the JSON literal null).  `payload = get_json(silent=True) or {}`
(app.py:347) replaces `None` and falsy JSON values by the empty dict, but
a truthy non-object JSON value (a list, string, number or true) reaches
`payload.get("theme")` (app.py:349), which raises AttributeError out of
the handler. -/
def put_reader_settings (u : User) (body : Option J) : Except Unit (User × Resp) :=
  match jOr (body.getD J.null) (.obj []) with
  | .obj kvs => .ok (put_reader_settings_obj u (jGet kvs))
  | _ => .error ()

/-! Listening progress, bookmarks and notes. -/

/-- The ownership/key predicate of
`ListeningProgress.query.filter_by(user_id=..., chapter_id=...)`. -/
def progKeyB (uid : Nat) (cid : String) (r : ProgressRow) : Bool :=
  r.user_id == uid && r.chapter_id == cid

/-- `set_progress`, POST `/api/progress` (app.py:574): trim the chapter
id, convert the position (raising on a truthy unparseable value), reject
an empty chapter id, then insert or update in place the single
`(user, chapter)` row; one commit. -/
def set_progress (uid : Nat) (p : Payload) (now : Nat) (rows : List ProgressRow) :
    Except Unit (Resp × List ProgressRow) :=
  match jStrField p "chapterId" with
  | .error e => .error e
  | .ok cid =>
    match posField p with
    | .error e => .error e
    | .ok pos =>
      if cid = "" then .ok (errResp 400 "Missing chapterId", rows)
      else
        match rows.find? (progKeyB uid cid) with
        | none => .ok (okResp, rows ++ [⟨uid, cid, pos, now⟩])
        | some _ =>
          .ok (okResp,
               updateFirst (progKeyB uid cid)
                 (fun r => { r with position_seconds := pos, updated_at := now }) rows)

/-- `add_bookmark`, POST `/api/bookmarks` (app.py:618): fields are
extracted (position conversion may raise) before the empty-chapter check;
a new row is appended and its id returned. -/
def add_bookmark (uid : Nat) (p : Payload) (now : Nat) (st : Table BookmarkRow) :
    Except Unit (Resp × Table BookmarkRow) :=
  match jStrField p "chapterId" with
  | .error e => .error e
  | .ok cid =>
    match posField p with
    | .error e => .error e
    | .ok pos =>
      match jStrField p "label" with
      | .error e => .error e
      | .ok labelS =>
        let label := if labelS = "" then none else some labelS
        if cid = "" then .ok (errResp 400 "Missing chapterId", st)
        else
          .ok (okIdResp st.next_id,
               ⟨st.rows ++ [⟨st.next_id, uid, cid, pos, label, now⟩], st.next_id + 1⟩)

/-- `add_note`, POST `/api/notes` (app.py:671): chapterId and text are
required non-empty after trimming; type/severity trim to `None` when
empty; `spoiler` is plain truthiness; position conversion may raise. -/
def add_note (uid : Nat) (p : Payload) (now : Nat) (st : Table NoteRow) :
    Except Unit (Resp × Table NoteRow) :=
  match jStrField p "chapterId" with
  | .error e => .error e
  | .ok cid =>
    match posField p with
    | .error e => .error e
    | .ok pos =>
      match jStrField p "text" with
      | .error e => .error e
      | .ok text =>
        match jStrField p "type" with
        | .error e => .error e
        | .ok typS =>
          match jStrField p "severity" with
          | .error e => .error e
          | .ok sevS =>
            let typ := if typS = "" then none else some typS
            let sev := if sevS = "" then none else some sevS
            let spoiler := truthyJ (jOr (p "spoiler") (.b false))
            if !(cid != "" && text != "") then
              .ok (errResp 400 "Missing chapterId or text", st)
            else
              .ok (okIdResp st.next_id,
                   ⟨st.rows ++ [⟨st.next_id, uid, cid, pos, typ, sev, spoiler, text, now, now⟩],
                    st.next_id + 1⟩)

/-- `delete_bookmark`, DELETE `/api/bookmarks/<id>` (app.py:634): the
lookup is owner-scoped (`filter_by(user_id=current_user.id, id=...)`), so
a row of another user is simply not found. -/
def delete_bookmark (uid bid : Nat) (st : Table BookmarkRow) : Resp × Table BookmarkRow :=
  match st.rows.find? (fun r => r.user_id == uid && r.id == bid) with
  | none => (errResp 404 "Not found", st)
  | some _ =>
    (okResp, { st with rows := removeFirst (fun r => r.user_id == uid && r.id == bid) st.rows })

/-- `delete_note`, DELETE `/api/notes/<id>` (app.py:720): same
owner-scoped lookup and hard delete as `delete_bookmark`. -/
def delete_note (uid nid : Nat) (st : Table NoteRow) : Resp × Table NoteRow :=
  match st.rows.find? (fun r => r.user_id == uid && r.id == nid) with
  | none => (errResp 404 "Not found", st)
  | some _ =>
    (okResp, { st with rows := removeFirst (fun r => r.user_id == uid && r.id == nid) st.rows })

/-! Persisted-document endpoints. -/

/-- `audio_manifest`, GET `/api/audio/manifest` (app.py:453): default body
when the file is missing; otherwise `json.loads` of the file with no
exception handler, so a malformed file raises out of the handler. -/
def audio_manifest (f : FileDoc) : Except Unit Resp :=
  match f with
  | .missing => .ok ⟨200, .obj [( "bookTitle", .s "The Enemy Within"), ( "chapters", .arr [])]⟩
  | .malformed => .error ()
  | .ok j => .ok ⟨200, j⟩

/-- The fallback body of `build_info` (app.py:296); `today` is the
rendered `utcnow().date().isoformat()`. -/
def buildInfoFallback (today : String) : J :=
  .obj [( "draftVersion", .s "v0"), ( "updatedAt", .s today), ( "whatChanged", .arr [])]

/-- `build_info`, GET `/api/build-info` (app.py:292): everything happens
inside one `try`, so a missing file, malformed JSON or a non-dict document
all fall back; a dict document has its fields coerced (`str(... or
default)`, non-list `whatChanged` emptied). -/
def build_info (f : FileDoc) (today : String) : Resp :=
  let fallback := buildInfoFallback today
  match f with
  | .missing => ⟨200, fallback⟩
  | .malformed => ⟨200, fallback⟩
  | .ok j =>
    match j with
    | .obj kvs =>
      let dv := pyStrOfJ (jOr (jGet kvs "draftVersion") (.s "v0"))
      let ua := pyStrOfJ (jOr (jGet kvs "updatedAt") (.s today))
      let wc :=
        match jOr (jGet kvs "whatChanged") (.arr []) with
        | .arr l => J.arr l
        | _ => J.arr []
      ⟨200, .obj [( "draftVersion", .s dv), ( "updatedAt", .s ua), ( "whatChanged", wc)]⟩
    | _ => ⟨200, fallback⟩

/-- `synced_text`, GET `/api/audio/synced-text/<chapter_id>` (app.py:538),
over the synced-text directory as a map from chapter id to document state.
The route converter for `<chapter_id>` never matches a slash, so the
resolved path `SYNC_TEXT_DIR/<chapter_id>.json` stays inside the fixed
directory and the traversal guard passes.  A missing file is a 404; a
malformed file is caught and answered with a 500 error body. -/
def synced_text (cid : String) (files : String → FileDoc) : Resp :=
  match files cid with
  | .missing => errResp 404 "No synced text for this chapter"
  | .malformed => errResp 500 "Synced text file is invalid"
  | .ok j => ⟨200, j⟩

/-! Admin endpoints. -/

/-- `_require_admin` (app.py:943): 401 when unauthenticated, 403 when the
user's `is_admin` flag is not set, otherwise no error. -/
def require_admin (cu : Option User) : Option Resp :=
  match cu with
  | none => some (errResp 401 "Unauthenticated")
  | some u => if !u.is_admin then some (errResp 403 "Forbidden") else none

/-- Stable insertion by a boolean `le`, modelling an SQL `ORDER BY`. -/
def insertByLe (le : α → α → Bool) (a : α) : List α → List α
  | [] => [a]
  | b :: bs => if le a b then a :: b :: bs else b :: insertByLe le a bs

/-- Stable insertion sort by a boolean `le`. -/
def sortByLe (le : α → α → Bool) (l : List α) : List α :=
  l.foldr (insertByLe le) []

/-- Serialization of one invite code in the admin listing. -/
def inviteItemJ (c : InviteCode) : J :=
  .obj [( "code", .s c.code),
        ( "usedAt", match c.used_at with
                    | some t => .s (isoOf t)
                    | none => .null),
        ( "usedByEmail", match c.used_by_email with
                         | some e2 => .s e2
                         | none => .null)]

/-- `admin_list_invites`, GET `/api/admin/invites` (app.py:950): admin
gate first, then all codes ordered unused-first
(`ORDER BY used_at IS NULL DESC`, modelled as a stable sort on that key). -/
def admin_list_invites (cu : Option User) (invites : List InviteCode) : Resp :=
  match require_admin cu with
  | some e => e
  | none =>
    let sorted := sortByLe
      (fun a b => Nat.ble (if a.used_at.isNone then 0 else 1) (if b.used_at.isNone then 0 else 1))
      invites
    ⟨200, .obj [( "items", .arr (sorted.map inviteItemJ))]⟩

/-- `admin_add_invite`, POST `/api/admin/invites` (app.py:969): admin gate
first (before the body is even parsed), then reject an empty or duplicate
code, otherwise insert an unused code row. -/
def admin_add_invite (cu : Option User) (p : Payload) (invites : List InviteCode) :
    Except Unit (Resp × List InviteCode) :=
  match require_admin cu with
  | some e => .ok (e, invites)
  | none =>
    match jStrField p "code" with
    | .error e => .error e
    | .ok code =>
      if code = "" then .ok (errResp 400 "Missing code", invites)
      else if (invites.find? (fun c => c.code == code)).isSome then
        .ok (errResp 400 "Code already exists", invites)
      else .ok (okResp, invites ++ [⟨code, none, none⟩])

/-- Serialization of one feedback row in the admin listing. -/
def feedbackItemJ (r : FeedbackRow) : J :=
  .obj [( "id", .n r.id), ( "userId", .n r.user_id), ( "scope", .s r.scope),
        ( "chapterId", match r.chapter_id with
                       | some c => .s c
                       | none => .null),
        ( "status", .s r.status),
        ( "draftVersion", match r.draft_version with
                          | some d => .s d
                          | none => .null),
        ( "text", .s r.text), ( "createdAt", .s (isoOf r.created_at))]

/-- `admin_feedback`, GET `/api/admin/feedback` (app.py:984): admin gate
first, then every feedback row newest-first. -/
def admin_feedback (cu : Option User) (rows : List FeedbackRow) : Resp :=
  match require_admin cu with
  | some e => e
  | none =>
    let sorted := sortByLe (fun a b => Nat.ble b.created_at a.created_at) rows
    ⟨200, .obj [( "items", .arr (sorted.map feedbackItemJ))]⟩

/-- `admin_update_feedback`, PUT `/api/admin/feedback/<id>` (app.py:1008):
admin gate first, then the status must be one of the three states, the row
must exist (any owner), and only its status is rewritten. -/
def admin_update_feedback (cu : Option User) (fid : Nat) (p : Payload)
    (rows : List FeedbackRow) : Except Unit (Resp × List FeedbackRow) :=
  match require_admin cu with
  | some e => .ok (e, rows)
  | none =>
    match jStrField p "status" with
    | .error e => .error e
    | .ok st =>
      let status := pyLower st
      if !(status == "new" || status == "triaged" || status == "fixed") then
        .ok (errResp 400 "Invalid status", rows)
      else
        match rows.find? (fun r => r.id == fid) with
        | none => .ok (errResp 404 "Not found", rows)
        | some _ =>
          .ok (okResp,
               updateFirst (fun r => r.id == fid) (fun r => { r with status := status }) rows)

/-- The user's most recently updated progress row
(`ORDER BY updated_at DESC ... first()`); on an updated-at tie the
earliest such row in table order is kept. -/
def latestProgress (uid : Nat) (rows : List ProgressRow) : Option ProgressRow :=
  (rows.filter (fun r => r.user_id == uid)).foldl
    (fun acc r =>
      match acc with
      | none => some r
      | some bst => if bst.updated_at < r.updated_at then some r else acc)
    none

/-- Serialization of one user in the admin progress summary. -/
def adminProgressItemJ (u : User) (prows : List ProgressRow) : J :=
  .obj [( "userId", .n u.id), ( "name", .s u.name), ( "email", .s u.email),
        ( "createdAt", .s (isoOf u.created_at)),
        ( "chaptersStarted", .n ((prows.filter (fun r => r.user_id == u.id)).length)),
        ( "latest", match latestProgress u.id prows with
                    | none => .null
                    | some r => .obj [( "chapterId", .s r.chapter_id),
                                      ( "positionSeconds", .n r.position_seconds),
                                      ( "updatedAt", .s (isoOf r.updated_at))])]

/-- `admin_progress`, GET `/api/admin/progress` (app.py:1026): admin gate
first, then per user (oldest account first) the started-chapter count and
the latest position. -/
def admin_progress (cu : Option User) (users : List User) (prows : List ProgressRow) : Resp :=
  match require_admin cu with
  | some e => e
  | none =>
    let sorted := sortByLe (fun a b => Nat.ble a.created_at b.created_at) users
    ⟨200, .obj [( "items", .arr (sorted.map (fun u => adminProgressItemJ u prows)))]⟩

/-! Helper lemmas about the list-state primitives. -/

theorem filter_nil_of_find?_none {α : Type} {p : α → Bool} {l : List α}
    (h : l.find? p = none) : l.filter p = [] :=
  List.filter_eq_nil_iff.mpr (List.find?_eq_none.mp h)

theorem find?_append_last {α : Type} {p : α → Bool} {a : α} :
    ∀ {l : List α}, l.find? p = none → p a = true → (l ++ [a]).find? p = some a
  | [], _, ha => by rw [List.nil_append, List.find?_cons_of_pos _ ha]
  | b :: l, h, ha => by
    have hb : ¬ p b := List.find?_eq_none.mp h b (List.mem_cons_self b l)
    have ht : l.find? p = none :=
      List.find?_eq_none.mpr fun x hx => List.find?_eq_none.mp h x (List.mem_cons_of_mem b hx)
    rw [List.cons_append, List.find?_cons_of_neg _ hb]
    exact find?_append_last ht ha

theorem find?_of_filter_singleton {α : Type} {p : α → Bool} {a : α} :
    ∀ {l : List α}, l.filter p = [a] → l.find? p = some a
  | [], h => by simp at h
  | b :: l, h => by
    cases hb : p b with
    | true =>
      rw [List.filter_cons_of_pos hb, List.cons_eq_cons] at h
      rw [List.find?_cons_of_pos _ hb, h.1]
    | false =>
      rw [List.filter_cons_of_neg (by simp [hb])] at h
      rw [List.find?_cons_of_neg _ (by simp [hb])]
      exact find?_of_filter_singleton h

theorem filter_singleton_of_find? {α : Type} {p : α → Bool} {a : α} :
    ∀ {l : List α}, l.find? p = some a → (l.filter p).length ≤ 1 → l.filter p = [a]
  | [], h, _ => by simp at h
  | b :: l, h, hle => by
    cases hb : p b with
    | true =>
      rw [List.find?_cons_of_pos _ hb, Option.some_inj] at h
      rw [List.filter_cons_of_pos hb] at hle ⊢
      have hnil : l.filter p = [] := by
        cases hf : l.filter p with
        | nil => rfl
        | cons c cs => rw [hf] at hle; simp at hle
      rw [hnil, h]
    | false =>
      rw [List.find?_cons_of_neg _ (by simp [hb])] at h
      rw [List.filter_cons_of_neg (by simp [hb])] at hle ⊢
      exact filter_singleton_of_find? h hle

theorem filter_updateFirst_self {α : Type} {p : α → Bool} {f : α → α} {a : α}
    (hf : ∀ x, p (f x) = p x) :
    ∀ {l : List α}, l.filter p = [a] → (updateFirst p f l).filter p = [f a]
  | [], h => by simp at h
  | b :: l, h => by
    cases hb : p b with
    | true =>
      rw [List.filter_cons_of_pos hb, List.cons_eq_cons] at h
      have hfb : p (f b) = true := by rw [hf b]; exact hb
      rw [updateFirst, if_pos hb, List.filter_cons_of_pos hfb, h.2, h.1]
    | false =>
      rw [List.filter_cons_of_neg (by simp [hb])] at h
      rw [updateFirst, if_neg (by simp [hb]), List.filter_cons_of_neg (by simp [hb])]
      exact filter_updateFirst_self hf h

theorem length_filter_updateFirst {α : Type} {p q : α → Bool} {f : α → α}
    (hf : ∀ x, p (f x) = p x) :
    ∀ {l : List α}, ((updateFirst q f l).filter p).length = (l.filter p).length
  | [] => rfl
  | b :: l => by
    cases hb : q b with
    | true =>
      rw [updateFirst, if_pos hb]
      cases hp : p b with
      | true =>
        have hfb : p (f b) = true := by rw [hf b]; exact hp
        rw [List.filter_cons_of_pos hfb, List.filter_cons_of_pos hp]
        simp
      | false =>
        have hfb : ¬ p (f b) = true := by rw [hf b]; simp [hp]
        rw [List.filter_cons_of_neg hfb, List.filter_cons_of_neg (by simp [hp])]
    | false =>
      rw [updateFirst, if_neg (by simp [hb])]
      cases hp : p b with
      | true =>
        rw [List.filter_cons_of_pos hp, List.filter_cons_of_pos hp]
        simp only [List.length_cons]
        rw [length_filter_updateFirst (q := q) hf]
      | false =>
        rw [List.filter_cons_of_neg (by simp [hp]), List.filter_cons_of_neg (by simp [hp])]
        exact length_filter_updateFirst (q := q) hf

/-! Concrete request bodies and their evaluation. -/

/-- A progress-upsert body carrying a chapter id and a numeric position. -/
def progPayload (cid : String) (q : ℚ) : Payload :=
  fun k => if k = "chapterId" then .s cid else if k = "positionSeconds" then .n q else .null

/-- A create body carrying only a chapter id (positionSeconds absent). -/
def cidOnlyPayload (cid : String) : Payload :=
  fun k => if k = "chapterId" then .s cid else .null

/-- A note-create body carrying a chapter id and text (positionSeconds
absent). -/
def notePayloadNoPos (cid txt : String) : Payload :=
  fun k => if k = "chapterId" then .s cid else if k = "text" then .s txt else .null

theorem pyStrip_ne_empty {t : String} (h : pyStrip t ≠ "") : t ≠ "" := by
  intro he
  subst he
  exact h rfl

theorem jStrField_s {p : Payload} {k t : String} (h : p k = .s t) (ht : t ≠ "") :
    jStrField p k = .ok (pyStrip t) := by
  simp [jStrField, h, jOr, truthyJ, ht]

theorem jStrField_falsy {p : Payload} {k : String} (h : truthyJ (p k) = false) :
    jStrField p k = .ok "" := by
  simp [jStrField, jOr, h]
  rfl

theorem posField_falsy {p : Payload} (h : truthyJ (p "positionSeconds") = false) :
    posField p = .ok 0 := by
  simp [posField, jOr, h, pyFloat]

theorem posField_num {p : Payload} {q : ℚ} (h : p "positionSeconds" = .n q) :
    posField p = .ok q := by
  by_cases hq : q = 0
  · subst hq
    simp [posField, jOr, h, truthyJ, pyFloat]
  · simp [posField, jOr, h, truthyJ, hq, pyFloat]

/-- At most one progress row per `(userId, chapterId)` key: the invariant
maintained by the table's unique constraint `uq_progress_user_chapter`. -/
def progAtMostOne (rows : List ProgressRow) : Prop :=
  ∀ u c, ((rows.filter (progKeyB u c)).length ≤ 1)

/-- How `set_progress` evaluates on a well-formed upsert body. -/
theorem set_progress_progPayload (uid : Nat) (cid : String) (q : ℚ) (now : Nat)
    (rows : List ProgressRow) (h : pyStrip cid ≠ "") :
    set_progress uid (progPayload cid q) now rows =
      (match rows.find? (progKeyB uid (pyStrip cid)) with
       | none => .ok (okResp, rows ++ [⟨uid, pyStrip cid, q, now⟩])
       | some _ =>
         .ok (okResp,
              updateFirst (progKeyB uid (pyStrip cid))
                (fun r => { r with position_seconds := q, updated_at := now }) rows)) := by
  have hcid : cid ≠ "" := pyStrip_ne_empty h
  have h1 : jStrField (progPayload cid q) "chapterId" = .ok (pyStrip cid) :=
    jStrField_s (by rfl) hcid
  have h2 : posField (progPayload cid q) = .ok q := posField_num (by rfl)
  rw [set_progress, h1, h2]
  simp only [if_neg h]

/-! Claim theorems. -/

/-- Claim C5: the progress upsert keeps at most one `ListeningProgress`
row per `(userId, chapterId)` key (the handler updates in place when a row
exists, and the unique constraint backs this invariant), and calling it
twice for the same user and chapter with two positions leaves exactly one
row for that key, holding the second call's position and timestamp. -/
theorem progress_upsert_exactly_one :
    (∀ uid p now rows resp rows2, progAtMostOne rows →
       set_progress uid p now rows = .ok (resp, rows2) → progAtMostOne rows2)
    ∧ (∀ uid cid q1 q2 t1 t2 rows r1 rows1 r2 rows2,
        progAtMostOne rows → pyStrip cid ≠ "" →
        set_progress uid (progPayload cid q1) t1 rows = .ok (r1, rows1) →
        set_progress uid (progPayload cid q2) t2 rows1 = .ok (r2, rows2) →
        rows2.filter (progKeyB uid (pyStrip cid)) = [⟨uid, pyStrip cid, q2, t2⟩]) := by
  constructor
  · intro uid p now rows resp rows2 hinv h
    rw [set_progress] at h
    cases hcf : jStrField p "chapterId" with
    | error e => rw [hcf] at h; exact absurd h (by simp)
    | ok cid =>
      rw [hcf] at h
      cases hpf : posField p with
      | error e => rw [hpf] at h; exact absurd h (by simp)
      | ok pos =>
        rw [hpf] at h
        by_cases hc : cid = ""
        · simp only [if_pos hc, Except.ok.injEq, Prod.mk.injEq] at h
          obtain ⟨-, hrows⟩ := h
          subst hrows
          exact hinv
        · simp only [if_neg hc] at h
          cases hf : rows.find? (progKeyB uid cid) with
          | none =>
            rw [hf] at h
            simp only [Except.ok.injEq, Prod.mk.injEq] at h
            obtain ⟨-, hrows⟩ := h
            subst hrows
            intro u c
            rw [List.filter_append]
            cases hm : progKeyB u c ⟨uid, cid, pos, now⟩ with
            | true =>
              have huc : uid = u ∧ cid = c := by simpa [progKeyB] using hm
              obtain ⟨hu, hc2⟩ := huc
              subst hu
              subst hc2
              rw [filter_nil_of_find?_none hf]
              simp [hm]
            | false =>
              have hz : List.filter (progKeyB u c) [⟨uid, cid, pos, now⟩] = [] := by
                simp [hm]
              rw [hz, List.append_nil]
              exact hinv u c
          | some r0 =>
            rw [hf] at h
            simp only [Except.ok.injEq, Prod.mk.injEq] at h
            obtain ⟨-, hrows⟩ := h
            subst hrows
            intro u c
            have hlen := length_filter_updateFirst (p := progKeyB u c) (q := progKeyB uid cid)
              (f := fun r : ProgressRow => { r with position_seconds := pos, updated_at := now })
              (fun x => rfl) (l := rows)
            rw [hlen]
            exact hinv u c
  · intro uid cid q1 q2 t1 t2 rows r1 rows1 r2 rows2 hinv hnz h1 h2
    rw [set_progress_progPayload uid cid q1 t1 rows hnz] at h1
    rw [set_progress_progPayload uid cid q2 t2 rows1 hnz] at h2
    have hkeep2 : ∀ x : ProgressRow,
        progKeyB uid (pyStrip cid) ({x with position_seconds := q2, updated_at := t2}) =
          progKeyB uid (pyStrip cid) x := fun x => rfl
    cases hf : rows.find? (progKeyB uid (pyStrip cid)) with
    | none =>
      rw [hf] at h1
      simp only [Except.ok.injEq, Prod.mk.injEq] at h1
      obtain ⟨-, hrows1⟩ := h1
      have hnew : progKeyB uid (pyStrip cid) ⟨uid, pyStrip cid, q1, t1⟩ = true := by
        simp [progKeyB]
      have hfil1 : rows1.filter (progKeyB uid (pyStrip cid)) = [⟨uid, pyStrip cid, q1, t1⟩] := by
        rw [← hrows1, List.filter_append, filter_nil_of_find?_none hf]
        simp [hnew]
      have hfind1 : rows1.find? (progKeyB uid (pyStrip cid)) = some ⟨uid, pyStrip cid, q1, t1⟩ :=
        find?_of_filter_singleton hfil1
      rw [hfind1] at h2
      simp only [Except.ok.injEq, Prod.mk.injEq] at h2
      obtain ⟨-, hrows2⟩ := h2
      rw [← hrows2]
      exact filter_updateFirst_self hkeep2 hfil1
    | some r0 =>
      rw [hf] at h1
      simp only [Except.ok.injEq, Prod.mk.injEq] at h1
      obtain ⟨-, hrows1⟩ := h1
      have hkeep1 : ∀ x : ProgressRow,
          progKeyB uid (pyStrip cid) ({x with position_seconds := q1, updated_at := t1}) =
            progKeyB uid (pyStrip cid) x := fun x => rfl
      have hfil : rows.filter (progKeyB uid (pyStrip cid)) = [r0] :=
        filter_singleton_of_find? hf (hinv uid (pyStrip cid))
      have hfil1 : rows1.filter (progKeyB uid (pyStrip cid)) =
          [{r0 with position_seconds := q1, updated_at := t1}] := by
        rw [← hrows1]
        exact filter_updateFirst_self hkeep1 hfil
      have hfind1 : rows1.find? (progKeyB uid (pyStrip cid)) =
          some ({r0 with position_seconds := q1, updated_at := t1}) :=
        find?_of_filter_singleton hfil1
      rw [hfind1] at h2
      simp only [Except.ok.injEq, Prod.mk.injEq] at h2
      obtain ⟨-, hrows2⟩ := h2
      rw [← hrows2]
      have hout := filter_updateFirst_self hkeep2 hfil1
      rw [hout]
      have hk : progKeyB uid (pyStrip cid) r0 = true := List.find?_some hf
      have hu : r0.user_id = uid ∧ r0.chapter_id = pyStrip cid := by
        simpa [progKeyB] using hk
      cases r0 with
      | mk ru rc rp rt =>
        simp only at hu
        rw [hu.1, hu.2]

/-- Claim C5 witness: starting from an empty table, two upserts for
user 1 and chapter `c1` at positions 10 and 20 leave exactly the single
row `(1, c1, 20)`. -/
theorem progress_upsert_exactly_one_witness :
    ∃ r1 rows1 r2 rows2,
      set_progress 1 (progPayload "c1" 10) 5 [] = .ok (r1, rows1)
      ∧ set_progress 1 (progPayload "c1" 20) 6 rows1 = .ok (r2, rows2)
      ∧ rows2.filter (progKeyB 1 (pyStrip "c1")) = [⟨1, pyStrip "c1", 20, 6⟩] := by
  refine ⟨okResp, [⟨1, "c1", 10, 5⟩], okResp, [⟨1, "c1", 20, 6⟩], rfl, rfl, ?_⟩
  exact progress_upsert_exactly_one.2 1 "c1" 10 20 5 6 [] okResp [⟨1, "c1", 10, 5⟩]
    okResp [⟨1, "c1", 20, 6⟩] (fun u c => by simp) (by decide) rfl rfl

/-- A bookmark-create body whose positionSeconds is the non-numeric
string `abc`. -/
def bmBadPayload : Payload :=
  fun k =>
    if k = "chapterId" then .s "c1"
    else if k = "positionSeconds" then .s "abc" else .null

/-- Claim C3 counterexample: a present but unparseable positionSeconds is
NOT treated as 0.0 — `float("abc")` raises with no handler around it, so
the bookmark-create request fails with an unhandled error instead of
proceeding. -/
theorem add_bookmark_unparseable_position_fails :
    add_bookmark 1 bmBadPayload 0 ⟨[], 1⟩ = .error () := rfl

/-- Claim C3 (amended): in the progress, bookmark and note create
handlers a positionSeconds that is absent (or otherwise falsy: null,
false, 0, empty string) defaults to 0.0 and the handler proceeds, but a
truthy value that `float()` cannot parse makes the shared conversion
expression raise and the request fail. -/
theorem position_default_amended :
    (∀ p : Payload, truthyJ (p "positionSeconds") = false → posField p = .ok 0)
    ∧ (∀ (p : Payload) (t : String), p "positionSeconds" = .s t → t ≠ "" →
        parseFloatStr t = none → posField p = .error ())
    ∧ (∀ uid now cid, pyStrip cid ≠ "" →
        set_progress uid (cidOnlyPayload cid) now [] =
          .ok (okResp, [⟨uid, pyStrip cid, 0, now⟩]))
    ∧ (∀ uid now cid st, pyStrip cid ≠ "" →
        add_bookmark uid (cidOnlyPayload cid) now st =
          .ok (okIdResp st.next_id,
               ⟨st.rows ++ [⟨st.next_id, uid, pyStrip cid, 0, none, now⟩], st.next_id + 1⟩))
    ∧ (∀ uid now cid txt st, pyStrip cid ≠ "" → pyStrip txt ≠ "" →
        add_note uid (notePayloadNoPos cid txt) now st =
          .ok (okIdResp st.next_id,
               ⟨st.rows ++
                  [⟨st.next_id, uid, pyStrip cid, 0, none, none, false, pyStrip txt, now, now⟩],
                st.next_id + 1⟩)) := by
  refine ⟨?_, ?_, ?_, ?_, ?_⟩
  · intro p h
    exact posField_falsy h
  · intro p t h ht hun
    simp [posField, jOr, truthyJ, h, ht, pyFloat, hun]
  · intro uid now cid h
    rw [set_progress,
        jStrField_s (p := cidOnlyPayload cid) (k := "chapterId") rfl (pyStrip_ne_empty h),
        posField_falsy (p := cidOnlyPayload cid) rfl]
    simp only [if_neg h]
    rfl
  · intro uid now cid st h
    rw [add_bookmark,
        jStrField_s (p := cidOnlyPayload cid) (k := "chapterId") rfl (pyStrip_ne_empty h),
        posField_falsy (p := cidOnlyPayload cid) rfl,
        jStrField_falsy (p := cidOnlyPayload cid) (k := "label") rfl]
    simp only [if_neg h]
    rfl
  · intro uid now cid txt st h ht
    rw [add_note,
        jStrField_s (p := notePayloadNoPos cid txt) (k := "chapterId") rfl (pyStrip_ne_empty h),
        posField_falsy (p := notePayloadNoPos cid txt) rfl,
        jStrField_s (p := notePayloadNoPos cid txt) (k := "text") rfl (pyStrip_ne_empty ht),
        jStrField_falsy (p := notePayloadNoPos cid txt) (k := "type") rfl,
        jStrField_falsy (p := notePayloadNoPos cid txt) (k := "severity") rfl]
    simp only []
    rw [if_neg (by simp [h, ht])]
    rfl

/-- Claim C3 witness: a create body with no positionSeconds at all yields
position 0.0 and the progress handler succeeds. -/
theorem position_default_amended_witness :
    posField (cidOnlyPayload "c1") = .ok 0
    ∧ set_progress 1 (cidOnlyPayload "c1") 3 [] = .ok (okResp, [⟨1, pyStrip "c1", 0, 3⟩]) := by
  refine ⟨position_default_amended.1 (cidOnlyPayload "c1") rfl, ?_⟩
  exact position_default_amended.2.2.1 1 3 "c1" (by decide)

theorem bool_eq_false {b : Bool} (h : ¬ b = true) : b = false := by
  cases b with
  | false => rfl
  | true => exact absurd rfl h

/-- Claim C2: every signup failure path — missing fields, unknown invite
code, an already-used invite code, an already-registered email — returns a
400 with the database unchanged (no user row, no invite-code mutation),
and the success path commits the new user row together with the
invite-code consumption in the one returned state transition. -/
theorem signup_atomic (p : Payload) (now : Nat) (db : DB)
    (name email : String) (pw : J) (ic : String)
    (hf : signupFields p = .ok (name, email, pw, ic)) :
    (∀ resp db2, signup p now db = .ok (resp, db2) → resp.status = 400 → db2 = db)
    ∧ (inviteIsUsed db ic = true ∨ emailTaken db email = true →
        ∃ resp, signup p now db = .ok (resp, db) ∧ resp.status = 400)
    ∧ (∀ resp db2, signup p now db = .ok (resp, db2) → resp.status ≠ 400 →
        resp = okResp ∧ inviteIsUsed db ic = false ∧ emailTaken db email = false
        ∧ ∃ pws, pw = .s pws
            ∧ db2 = ⟨db.users ++ [mkSignupUser db.next_user_id name email
                       (generate_password_hash pws) now],
                     consumeInvite db.invites ic now email,
                     db.next_user_id + 1⟩) := by
  refine ⟨?_, ?_, ?_⟩
  · intro resp db2 h h400
    rw [signup, hf] at h
    replace h : signupCore name email pw ic now db = .ok (resp, db2) := h
    rw [signupCore.eq_def] at h
    split at h
    · simp only [Except.ok.injEq, Prod.mk.injEq] at h
      exact h.2.symm
    · split at h
      · simp only [Except.ok.injEq, Prod.mk.injEq] at h
        exact h.2.symm
      · split at h
        · simp only [Except.ok.injEq, Prod.mk.injEq] at h
          exact h.2.symm
        · split at h
          · simp only [Except.ok.injEq, Prod.mk.injEq] at h
            exact h.2.symm
          · split at h
            · simp only [Except.ok.injEq, Prod.mk.injEq] at h
              rw [← h.1] at h400
              exact absurd h400 (by decide)
            · exact absurd h (by simp)
  · intro hor
    rw [signup, hf]
    show ∃ resp, signupCore name email pw ic now db = .ok (resp, db) ∧ resp.status = 400
    rw [signupCore.eq_def]
    split
    · exact ⟨errResp 400 "Missing required fields", rfl, rfl⟩
    · split
      · exact ⟨errResp 400 "Invalid invite code", rfl, rfl⟩
      · rename_i c heqfind
        split
        · exact ⟨errResp 400 "Invite code already used", rfl, rfl⟩
        · rename_i hused
          split
          · exact ⟨errResp 400 "Email already registered", rfl, rfl⟩
          · rename_i htaken
            rcases hor with hA | hB
            · rw [inviteIsUsed, heqfind] at hA
              exact absurd hA hused
            · rw [emailTaken] at hB
              exact absurd hB htaken
  · intro resp db2 h hne
    rw [signup, hf] at h
    replace h : signupCore name email pw ic now db = .ok (resp, db2) := h
    rw [signupCore.eq_def] at h
    split at h
    · simp only [Except.ok.injEq, Prod.mk.injEq] at h
      exact absurd (by rw [← h.1]; rfl) hne
    · split at h
      · simp only [Except.ok.injEq, Prod.mk.injEq] at h
        exact absurd (by rw [← h.1]; rfl) hne
      · rename_i c heqfind
        split at h
        · simp only [Except.ok.injEq, Prod.mk.injEq] at h
          exact absurd (by rw [← h.1]; rfl) hne
        · rename_i hused
          split at h
          · simp only [Except.ok.injEq, Prod.mk.injEq] at h
            exact absurd (by rw [← h.1]; rfl) hne
          · rename_i htaken
            split at h
            · simp only [Except.ok.injEq, Prod.mk.injEq] at h
              have hiu : inviteIsUsed db ic = false := by
                rw [inviteIsUsed, heqfind]
                exact bool_eq_false hused
              have het : emailTaken db email = false := by
                rw [emailTaken]
                exact bool_eq_false htaken
              exact ⟨h.1.symm, hiu, het, _, rfl, h.2.symm⟩
            · exact absurd h (by simp)

/-- A signup body naming the already-used invite code INV1. -/
def signupPayloadEx : Payload :=
  fun k =>
    if k = "name" then .s "A"
    else if k = "email" then .s "a@x.com"
    else if k = "password" then .s "p"
    else if k = "inviteCode" then .s "INV1" else .null

/-- A database whose only invite code INV1 is already consumed. -/
def dbUsedInvite : DB :=
  ⟨[], [⟨"INV1", some 1, some "b@x.com"⟩], 1⟩

/-- Claim C2 witness: signing up with the consumed code INV1 yields a 400
and leaves the database exactly as it was. -/
theorem signup_atomic_witness :
    ∃ resp, signup signupPayloadEx 7 dbUsedInvite = .ok (resp, dbUsedInvite)
      ∧ resp.status = 400 := by
  have h := (signup_atomic signupPayloadEx 7 dbUsedInvite "A" "a@x.com" (.s "p") "INV1" rfl).2.1
  exact h (Or.inl rfl)

theorem applyTheme_scale (u : User) (p : Payload) :
    (applyTheme u p).reader_font_scale = u.reader_font_scale := by
  rw [applyTheme]
  cases validThemeJ (p "theme") <;> rfl

theorem applyTheme_lh (u : User) (p : Payload) :
    (applyTheme u p).reader_line_height = u.reader_line_height := by
  rw [applyTheme]
  cases validThemeJ (p "theme") <;> rfl

theorem applyFontScale_theme (u : User) (p : Payload) :
    (applyFontScale u p).reader_theme = u.reader_theme := by
  rw [applyFontScale]
  cases pyFloat (p "fontScale") <;> rfl

theorem applyFontScale_lh (u : User) (p : Payload) :
    (applyFontScale u p).reader_line_height = u.reader_line_height := by
  rw [applyFontScale]
  cases pyFloat (p "fontScale") <;> rfl

theorem applyLineHeight_theme (u : User) (p : Payload) :
    (applyLineHeight u p).reader_theme = u.reader_theme := by
  rw [applyLineHeight]
  cases pyFloat (p "lineHeight") <;> rfl

theorem applyLineHeight_scale (u : User) (p : Payload) :
    (applyLineHeight u p).reader_font_scale = u.reader_font_scale := by
  rw [applyLineHeight]
  cases pyFloat (p "lineHeight") <;> rfl

/-- Claim C6: a fontScale submitted as 5.0 is clamped and stored as 1.6
and one submitted as 0.1 as 0.75; the stored fontScale stays in
[0.75, 1.6] and the stored lineHeight in [1.2, 2.4] across any update
whenever they start there, and a freshly created user's defaults (1.0 and
1.65) start inside both ranges. -/
theorem reader_settings_clamped :
    (∀ u, ∃ r, put_reader_settings u (some (J.obj [( "fontScale", J.n 5.0)])) = .ok r
        ∧ r.1.reader_font_scale = 1.6)
    ∧ (∀ u, ∃ r, put_reader_settings u (some (J.obj [( "fontScale", J.n 0.1)])) = .ok r
        ∧ r.1.reader_font_scale = 0.75)
    ∧ (∀ u p, 0.75 ≤ u.reader_font_scale → u.reader_font_scale ≤ 1.6 →
        0.75 ≤ ((put_reader_settings_obj u p).1).reader_font_scale
        ∧ ((put_reader_settings_obj u p).1).reader_font_scale ≤ 1.6)
    ∧ (∀ u p, 1.2 ≤ u.reader_line_height → u.reader_line_height ≤ 2.4 →
        1.2 ≤ ((put_reader_settings_obj u p).1).reader_line_height
        ∧ ((put_reader_settings_obj u p).1).reader_line_height ≤ 2.4)
    ∧ ((0.75 : ℚ) ≤ (mkSignupUser 0 "n" "e" "h" 0).reader_font_scale
        ∧ (mkSignupUser 0 "n" "e" "h" 0).reader_font_scale ≤ 1.6
        ∧ (1.2 : ℚ) ≤ (mkSignupUser 0 "n" "e" "h" 0).reader_line_height
        ∧ (mkSignupUser 0 "n" "e" "h" 0).reader_line_height ≤ 2.4) := by
  refine ⟨?_, ?_, ?_, ?_, ?_⟩
  · intro u
    refine ⟨_, rfl, ?_⟩
    show (applyLineHeight
      (applyFontScale (applyTheme u (jGet [( "fontScale", J.n 5.0)]))
        (jGet [( "fontScale", J.n 5.0)]))
      (jGet [( "fontScale", J.n 5.0)])).reader_font_scale = 1.6
    rw [applyLineHeight_scale, applyFontScale]
    rw [show pyFloat (jGet [( "fontScale", J.n 5.0)] "fontScale") = some 5.0 from rfl]
    show max 0.75 (min 1.6 5.0) = (1.6 : ℚ)
    norm_num
  · intro u
    refine ⟨_, rfl, ?_⟩
    show (applyLineHeight
      (applyFontScale (applyTheme u (jGet [( "fontScale", J.n 0.1)]))
        (jGet [( "fontScale", J.n 0.1)]))
      (jGet [( "fontScale", J.n 0.1)])).reader_font_scale = 0.75
    rw [applyLineHeight_scale, applyFontScale]
    rw [show pyFloat (jGet [( "fontScale", J.n 0.1)] "fontScale") = some 0.1 from rfl]
    show max 0.75 (min 1.6 0.1) = (0.75 : ℚ)
    norm_num
  · intro u p h1 h2
    show 0.75 ≤ (applyLineHeight (applyFontScale (applyTheme u p) p) p).reader_font_scale
      ∧ (applyLineHeight (applyFontScale (applyTheme u p) p) p).reader_font_scale ≤ 1.6
    rw [applyLineHeight_scale, applyFontScale]
    cases hpf : pyFloat (p "fontScale") with
    | none =>
      rw [applyTheme_scale]
      exact ⟨h1, h2⟩
    | some q =>
      constructor
      · exact le_max_left 0.75 (min 1.6 q)
      · exact max_le (by norm_num) (min_le_left 1.6 q)
  · intro u p h1 h2
    show 1.2 ≤ (applyLineHeight (applyFontScale (applyTheme u p) p) p).reader_line_height
      ∧ (applyLineHeight (applyFontScale (applyTheme u p) p) p).reader_line_height ≤ 2.4
    rw [applyLineHeight]
    cases hlh : pyFloat (p "lineHeight") with
    | none =>
      rw [applyFontScale_lh, applyTheme_lh]
      exact ⟨h1, h2⟩
    | some q =>
      constructor
      · exact le_max_left 1.2 (min 2.4 q)
      · exact max_le (by norm_num) (min_le_left 2.4 q)
  · refine ⟨by norm_num [mkSignupUser], by norm_num [mkSignupUser],
      by norm_num [mkSignupUser], by norm_num [mkSignupUser]⟩

/-- Claim C6 witness: starting from the default fontScale 1.0 (inside the
range), an update keeps the stored fontScale inside [0.75, 1.6]. -/
theorem reader_settings_clamped_witness :
    0.75 ≤ ((put_reader_settings_obj (mkSignupUser 0 "n" "e" "h" 0)
        (jGet [( "fontScale", J.n 5.0)])).1).reader_font_scale
    ∧ ((put_reader_settings_obj (mkSignupUser 0 "n" "e" "h" 0)
        (jGet [( "fontScale", J.n 5.0)])).1).reader_font_scale ≤ 1.6 :=
  reader_settings_clamped.2.2.1 (mkSignupUser 0 "n" "e" "h" 0)
    (jGet [( "fontScale", J.n 5.0)])
    (by norm_num [mkSignupUser]) (by norm_num [mkSignupUser])

/-- Claim C7: GET /api/auth/me without a session answers 200 with body
authenticated=false, never a 401. -/
theorem me_unauthenticated_ok :
    me none = ⟨200, .obj [( "authenticated", .b false)]⟩
    ∧ (me none).status = 200 ∧ (me none).status ≠ 401 :=
  ⟨rfl, rfl, by decide⟩

/-- Claim C7 witness: the unauthenticated identity check concretely
returns status 200. -/
theorem me_unauthenticated_ok_witness : (me none).status = 200 :=
  me_unauthenticated_ok.2.1

/-- Claim C10 counterexample: a request whose JSON body is the truthy
non-object array [1] does NOT get a success response: `payload.get`
raises AttributeError and the handler fails with an unhandled error,
refuting "returns success regardless of the body's contents". -/
theorem put_reader_settings_array_body_fails :
    put_reader_settings (mkSignupUser 0 "n" "e" "h" 0) (some (J.arr [J.n 1])) =
      .error () := rfl

/-- Claim C10 (amended): for a body that is a JSON object — or absent,
unparseable or falsy, which the `or`-with-empty-dict default turns into
the empty object — the update succeeds, answering 200 with the stored
settings; an invalid theme or an absent/unconvertible fontScale or
lineHeight is silently ignored (stored field unchanged) while each valid
field in the same request is applied (clamped).  A truthy non-object JSON
body, however, makes the attribute lookup raise and the request fail. -/
theorem reader_settings_lenient_amended (u : User) :
    (∀ kvs, put_reader_settings u (some (.obj kvs)) =
        .ok (put_reader_settings_obj u (jGet kvs)))
    ∧ (∀ body, truthyJ (body.getD J.null) = false →
        put_reader_settings u body = .ok (put_reader_settings_obj u (jGet [])))
    ∧ (∀ j, truthyJ j = true → (∀ kvs, j ≠ J.obj kvs) →
        put_reader_settings u (some j) = .error ())
    ∧ (∀ p : Payload,
        ((put_reader_settings_obj u p).2).status = 200
        ∧ (put_reader_settings_obj u p).2
            = get_reader_settings (put_reader_settings_obj u p).1
        ∧ (validThemeJ (p "theme") = none →
            ((put_reader_settings_obj u p).1).reader_theme = u.reader_theme)
        ∧ (pyFloat (p "fontScale") = none →
            ((put_reader_settings_obj u p).1).reader_font_scale = u.reader_font_scale)
        ∧ (pyFloat (p "lineHeight") = none →
            ((put_reader_settings_obj u p).1).reader_line_height = u.reader_line_height)
        ∧ (∀ t, validThemeJ (p "theme") = some t →
            ((put_reader_settings_obj u p).1).reader_theme = t)
        ∧ (∀ q, pyFloat (p "fontScale") = some q →
            ((put_reader_settings_obj u p).1).reader_font_scale = max 0.75 (min 1.6 q))
        ∧ (∀ q, pyFloat (p "lineHeight") = some q →
            ((put_reader_settings_obj u p).1).reader_line_height
              = max 1.2 (min 2.4 q))) := by
  refine ⟨?_, ?_, ?_, ?_⟩
  · intro kvs
    cases kvs with
    | nil => rfl
    | cons a l => rfl
  · intro body h
    rw [put_reader_settings, jOr, h]
    rfl
  · intro j ht hne
    cases j with
    | null => exact absurd ht (by decide)
    | b v => simp [put_reader_settings, jOr, ht]
    | n q => simp [put_reader_settings, jOr, ht]
    | s t => simp [put_reader_settings, jOr, ht]
    | arr l => simp [put_reader_settings, jOr, ht]
    | obj kvs => exact (hne kvs rfl).elim
  · intro p
    refine ⟨rfl, rfl, ?_, ?_, ?_, ?_, ?_, ?_⟩
    · intro h
      show (applyLineHeight (applyFontScale (applyTheme u p) p) p).reader_theme
        = u.reader_theme
      rw [applyLineHeight_theme, applyFontScale_theme, applyTheme, h]
    · intro h
      show (applyLineHeight (applyFontScale (applyTheme u p) p) p).reader_font_scale
        = u.reader_font_scale
      rw [applyLineHeight_scale, applyFontScale, h, applyTheme_scale]
    · intro h
      show (applyLineHeight (applyFontScale (applyTheme u p) p) p).reader_line_height
        = u.reader_line_height
      rw [applyLineHeight, h, applyFontScale_lh, applyTheme_lh]
    · intro t h
      show (applyLineHeight (applyFontScale (applyTheme u p) p) p).reader_theme = t
      rw [applyLineHeight_theme, applyFontScale_theme, applyTheme, h]
    · intro q h
      show (applyLineHeight (applyFontScale (applyTheme u p) p) p).reader_font_scale
        = max 0.75 (min 1.6 q)
      rw [applyLineHeight_scale, applyFontScale, h]
    · intro q h
      show (applyLineHeight (applyFontScale (applyTheme u p) p) p).reader_line_height
        = max 1.2 (min 2.4 q)
      rw [applyLineHeight, h]

/-- A reader-settings body mixing an invalid theme, an unconvertible
fontScale and a valid lineHeight. -/
def mixedPayload : Payload :=
  fun k =>
    if k = "theme" then .s "neon"
    else if k = "fontScale" then .s "abc"
    else if k = "lineHeight" then .n 2.0 else .null

/-- Claim C10 witness: an absent body succeeds as the empty object, a
string body fails, and on the mixed object body the handler answers 200
and keeps the stored theme despite the invalid value. -/
theorem reader_settings_lenient_amended_witness :
    put_reader_settings (mkSignupUser 0 "n" "e" "h" 0) none =
      .ok (put_reader_settings_obj (mkSignupUser 0 "n" "e" "h" 0) (jGet []))
    ∧ put_reader_settings (mkSignupUser 0 "n" "e" "h" 0) (some (J.s "x")) = .error ()
    ∧ ((put_reader_settings_obj (mkSignupUser 0 "n" "e" "h" 0) mixedPayload).2).status = 200
    ∧ ((put_reader_settings_obj (mkSignupUser 0 "n" "e" "h" 0) mixedPayload).1).reader_theme
        = "paper" := by
  have h := reader_settings_lenient_amended (mkSignupUser 0 "n" "e" "h" 0)
  refine ⟨h.2.1 none rfl, h.2.2.1 (J.s "x") rfl (fun kvs hk => J.noConfusion hk), ?_, ?_⟩
  · exact (h.2.2.2 mixedPayload).1
  · rw [(h.2.2.2 mixedPayload).2.2.1 rfl]
    rfl

/-- Claim C8: bookmark/note deletion is owner-scoped: when every row with
the requested id belongs to a different user the handler answers 404 and
deletes nothing, and a successful delete implies a row with that id owned
by the caller existed. -/
theorem delete_owner_scoped :
    (∀ uid bid (st : Table BookmarkRow),
        (∀ r ∈ st.rows, r.id = bid → ¬ r.user_id = uid) →
        delete_bookmark uid bid st = (errResp 404 "Not found", st))
    ∧ (∀ uid nid (st : Table NoteRow),
        (∀ r ∈ st.rows, r.id = nid → ¬ r.user_id = uid) →
        delete_note uid nid st = (errResp 404 "Not found", st))
    ∧ (∀ uid bid (st : Table BookmarkRow) resp st2,
        delete_bookmark uid bid st = (resp, st2) → resp.status = 200 →
        ∃ r ∈ st.rows, r.id = bid ∧ r.user_id = uid)
    ∧ (∀ uid nid (st : Table NoteRow) resp st2,
        delete_note uid nid st = (resp, st2) → resp.status = 200 →
        ∃ r ∈ st.rows, r.id = nid ∧ r.user_id = uid) := by
  refine ⟨?_, ?_, ?_, ?_⟩
  · intro uid bid st h
    have hnone : st.rows.find? (fun r => r.user_id == uid && r.id == bid) = none := by
      rw [List.find?_eq_none]
      intro x hx hpx
      simp only [Bool.and_eq_true, beq_iff_eq] at hpx
      exact h x hx hpx.2 hpx.1
    rw [delete_bookmark, hnone]
  · intro uid nid st h
    have hnone : st.rows.find? (fun r => r.user_id == uid && r.id == nid) = none := by
      rw [List.find?_eq_none]
      intro x hx hpx
      simp only [Bool.and_eq_true, beq_iff_eq] at hpx
      exact h x hx hpx.2 hpx.1
    rw [delete_note, hnone]
  · intro uid bid st resp st2 h h200
    rw [delete_bookmark] at h
    cases hf : st.rows.find? (fun r => r.user_id == uid && r.id == bid) with
    | none =>
      rw [hf] at h
      simp only [Prod.mk.injEq] at h
      rw [← h.1] at h200
      exact absurd h200 (by decide)
    | some r =>
      have hp := List.find?_some hf
      have hm := List.mem_of_find?_eq_some hf
      simp only [Bool.and_eq_true, beq_iff_eq] at hp
      exact ⟨r, hm, hp.2, hp.1⟩
  · intro uid nid st resp st2 h h200
    rw [delete_note] at h
    cases hf : st.rows.find? (fun r => r.user_id == uid && r.id == nid) with
    | none =>
      rw [hf] at h
      simp only [Prod.mk.injEq] at h
      rw [← h.1] at h200
      exact absurd h200 (by decide)
    | some r =>
      have hp := List.find?_some hf
      have hm := List.mem_of_find?_eq_some hf
      simp only [Bool.and_eq_true, beq_iff_eq] at hp
      exact ⟨r, hm, hp.2, hp.1⟩

/-- Claim C8 witness: user 2 asking to delete bookmark id 1, which is
owned by user 1, gets a 404 and the table is unchanged. -/
theorem delete_owner_scoped_witness :
    delete_bookmark 2 1 ⟨[⟨1, 1, "c1", 0, none, 0⟩], 2⟩ =
      (errResp 404 "Not found", ⟨[⟨1, 1, "c1", 0, none, 0⟩], 2⟩) :=
  delete_owner_scoped.1 2 1 ⟨[⟨1, 1, "c1", 0, none, 0⟩], 2⟩ (by decide)

/-- Claim C9: every admin endpoint runs the shared gate first: an
unauthenticated request gets a 401 and a non-admin authenticated request a
403, in both cases before any admin read or write (the response is the
bare error and the table state is untouched). -/
theorem admin_gate :
    (∀ invites, admin_list_invites none invites = errResp 401 "Unauthenticated")
    ∧ (∀ p invites, admin_add_invite none p invites = .ok (errResp 401 "Unauthenticated", invites))
    ∧ (∀ rows, admin_feedback none rows = errResp 401 "Unauthenticated")
    ∧ (∀ fid p rows,
        admin_update_feedback none fid p rows = .ok (errResp 401 "Unauthenticated", rows))
    ∧ (∀ users prows, admin_progress none users prows = errResp 401 "Unauthenticated")
    ∧ (∀ u, u.is_admin = false →
        (∀ invites, admin_list_invites (some u) invites = errResp 403 "Forbidden")
        ∧ (∀ p invites, admin_add_invite (some u) p invites = .ok (errResp 403 "Forbidden", invites))
        ∧ (∀ rows, admin_feedback (some u) rows = errResp 403 "Forbidden")
        ∧ (∀ fid p rows,
            admin_update_feedback (some u) fid p rows = .ok (errResp 403 "Forbidden", rows))
        ∧ (∀ users prows, admin_progress (some u) users prows = errResp 403 "Forbidden")) := by
  refine ⟨fun invites => rfl, fun p invites => rfl, fun rows => rfl, fun fid p rows => rfl,
    fun users prows => rfl, ?_⟩
  intro u hu
  have hra : require_admin (some u) = some (errResp 403 "Forbidden") := by
    rw [require_admin, hu]
    rfl
  refine ⟨?_, ?_, ?_, ?_, ?_⟩
  · intro invites
    rw [admin_list_invites, hra]
  · intro p invites
    rw [admin_add_invite, hra]
  · intro rows
    rw [admin_feedback, hra]
  · intro fid p rows
    rw [admin_update_feedback, hra]
  · intro users prows
    rw [admin_progress, hra]

/-- Claim C9 witness: a concrete non-admin user (signup default) receives
a 403 from the invite listing. -/
theorem admin_gate_witness :
    (mkSignupUser 3 "n" "x@y.z" "h" 0).is_admin = false
    ∧ admin_list_invites (some (mkSignupUser 3 "n" "x@y.z" "h" 0)) [] =
        errResp 403 "Forbidden" :=
  ⟨rfl, (admin_gate.2.2.2.2.2 (mkSignupUser 3 "n" "x@y.z" "h" 0) rfl).1 []⟩

/-- Claim C4 counterexample: the audio-manifest handler has no exception
handling around `json.loads`, so a malformed manifest file makes the
request fail with an unhandled error (a 500), not degrade to a safe
default. -/
theorem audio_manifest_malformed_fails :
    audio_manifest FileDoc.malformed = .error () := rfl

/-- Claim C4 (amended): only the build-info endpoint degrades on a
malformed or mis-shaped document (the fallback body, always a 200); the
audio-manifest endpoint degrades only when the file is missing and raises
on a malformed file; the synced-text endpoint answers a malformed file
with a 500 error response rather than a safe default. -/
theorem persisted_docs_amended :
    (∀ today, build_info FileDoc.malformed today = ⟨200, buildInfoFallback today⟩)
    ∧ (∀ f today, (build_info f today).status = 200)
    ∧ audio_manifest FileDoc.missing =
        .ok ⟨200, .obj [( "bookTitle", .s "The Enemy Within"), ( "chapters", .arr [])]⟩
    ∧ audio_manifest FileDoc.malformed = .error ()
    ∧ (∀ cid files, files cid = FileDoc.malformed →
        synced_text cid files = errResp 500 "Synced text file is invalid") := by
  refine ⟨fun today => rfl, ?_, rfl, rfl, ?_⟩
  · intro f today
    cases f with
    | missing => rfl
    | malformed => rfl
    | ok j => cases j <;> rfl
  · intro cid files h
    rw [synced_text, h]

/-- Claim C4 witness: a malformed synced-text document for chapter c1
yields the 500 error response. -/
theorem persisted_docs_amended_witness :
    synced_text "c1" (fun _ => FileDoc.malformed) = errResp 500 "Synced text file is invalid" :=
  persisted_docs_amended.2.2.2.2 "c1" (fun _ => FileDoc.malformed) rfl

/-- A manifest whose only chapter points at the attacker-registrable host
evildropbox.com. -/
def evilManifest : J :=
  .obj [( "chapters",
          .arr [J.obj [( "id", .s "ch1"),
                       ( "audioUrl", .s "https://evildropbox.com/audio.mp3")]])]

/-- Claim C1 (code bug): the handler is supposed to reject any host that
is not exactly one of the two allowlisted domains or a subdomain of one
of them, before any upstream connection.  The host evildropbox.com is
neither dropbox.com nor a subdomain of it (per `spec_allowed_host`), yet
the code's unanchored `endswith("dropbox.com")` accepts it and
`stream_audio` proceeds to the upstream fetch instead of answering 400. -/
theorem stream_audio_allowlist_divergence :
    urlparse_scheme_host "https://evildropbox.com/audio.mp3" = ("https", "evildropbox.com")
    ∧ spec_allowed_host "evildropbox.com" = false
    ∧ is_allowed_audio_source "https://evildropbox.com/audio.mp3" = true
    ∧ stream_audio "ch1" (FileDoc.ok evilManifest) none =
        .ok (.fetch "https://evildropbox.com/audio.mp3" (streamHeaders none)) :=
  ⟨rfl, rfl, rfl, rfl⟩

end TEW
